import Mathlib

/-!
Verification of the xCore repository's difficulty codec, mempool and block
storage engine against its natural-language specification.

The Rust sources (src/difficulty.rs, src/mempool.rs, src/main.rs,
src/storage.rs) are shallowly embedded below.  Machine integers (u32, u64,
u128, usize) are modelled as `Nat` with explicit bounds or `% 2^w` where
overflow matters; arithmetic that panics under Rust's checked semantics
(overflowing shifts, underflowing subtractions on unsigned integers,
division by zero, out-of-bounds indexing) is modelled by `Option`-valued
functions returning `none` at the failing inputs.  Fallible operations
return `Option` or a result paired with an error.
-/

/-! ## Difficulty codec (src/difficulty.rs) -/

def MAX_DIFFICULTY_BITS : Nat := 0x1f000001

def MIN_DIFFICULTY_BITS : Nat := 0x207fffff

def GENESIS_BLOCK_DIFFICULTY : Nat := 0x207fffff

/-- The compact 32-bit difficulty representation: one exponent byte and
three mantissa bytes packed into `bits`. -/
structure Difficulty where
  bits : Nat
deriving DecidableEq, Repr

/-- `Difficulty::new(bits)`: `Difficulty { bits: max(min(bits, MAX_DIFFICULTY_BITS), MIN_DIFFICULTY_BITS) }`. -/
def Difficulty.new (bits : Nat) : Difficulty :=
  ⟨max (min bits MAX_DIFFICULTY_BITS) MIN_DIFFICULTY_BITS⟩

/-- `Difficulty::target(&self) -> [u8; 16]`.  The 16-byte array is modelled
as a `List Nat` of length 16.  The source writes `target[start_idx]`
unconditionally; when `significant_bytes = 0` (exponent byte 0) the write
is `target[16]`, an out-of-bounds index that panics, modelled as `none`. -/
def Difficulty.target (d : Difficulty) : Option (List Nat) :=
  let exponent := d.bits >>> 24
  let mantissa := d.bits &&& 0xffffff
  let significant_bytes := min exponent 16
  if significant_bytes = 0 then none
  else
    let start_idx := 16 - significant_bytes
    some ((List.range 16).map (fun i =>
      if i = start_idx then mantissa >>> 16
      else if 1 < significant_bytes ∧ i = start_idx + 1 then (mantissa >>> 8) &&& 0xff
      else if 2 < significant_bytes ∧ i = start_idx + 2 then mantissa &&& 0xff
      else 0))

/-- `Difficulty::from_target(target: &[u8; 16])`: scan for the first
non-zero byte, derive `significant_bytes = 16 - i` and a 3-byte mantissa
from bytes `i, i+1, i+2` (guarded by `i+1 < 16` / `i+2 < 16`), then feed
the recombined bits into `Difficulty::new`.  All-zero input leaves
`significant_bytes = 0` and `mantissa = 0`. -/
def Difficulty.from_target (target : List Nat) : Difficulty :=
  match target.findIdx? (fun b => b != 0) with
  | none => Difficulty.new 0
  | some i =>
    let significant_bytes := 16 - i
    let mantissa := ((target.getD i 0) <<< 16) |||
      (if i + 1 < 16 then (target.getD (i + 1) 0) <<< 8 else 0) |||
      (if i + 2 < 16 then target.getD (i + 2) 0 else 0)
    Difficulty.new ((significant_bytes <<< 24) ||| (mantissa &&& 0xffffff))

/-- `Difficulty::to_target(&self) -> u128`:
`(mantissa as u128) << (8 * (exponent as u128 - 3))`.
Under Rust's checked arithmetic this panics when `exponent < 3` (the
`u128` subtraction underflows) and when the shift amount
`8 * (exponent - 3)` is `>= 128` (overflowing shift); both failing cases
are modelled as `none`.  Bits shifted past the 128-bit width are
discarded, hence the `% 2^128`. -/
def Difficulty.to_target (d : Difficulty) : Option Nat :=
  let exponent := d.bits >>> 24
  let mantissa := d.bits &&& 0xffffff
  if exponent < 3 then none
  else if 128 ≤ 8 * (exponent - 3) then none
  else some ((mantissa <<< (8 * (exponent - 3))) % 2 ^ 128)

/-- The `while shifted_target > 0 && exponent > 3` loop of
`Difficulty::from_target_u128`, shifting right by one byte and
decrementing the exponent each iteration.  The exponent is the
(structurally decreasing) second argument, started at 32 by the caller. -/
def fromTargetLoop : Nat → Nat → Nat
  | _, 0 => 0
  | s, e + 1 => if 0 < s ∧ 3 < e + 1 then fromTargetLoop (s / 256) e else e + 1

/-- `Difficulty::from_target_u128(target: u128)`: find the exponent via the
shift loop (starting at 32), extract the top three bytes as a mantissa
capped at `0x00ffffff`, recombine and clamp through `Difficulty::new`.
The mantissa extraction `target >> (8 * (exponent - 3))` is an
overflowing (panicking) shift when `8 * (exponent - 3) >= 128`, modelled
as `none`. -/
def from_target_u128 (target : Nat) : Option Difficulty :=
  let exponent := fromTargetLoop target 32
  if 128 ≤ 8 * (exponent - 3) then none
  else
    let mantissa := min (target >>> (8 * (exponent - 3))) 0xffffff
    some (Difficulty.new ((exponent <<< 24) ||| mantissa))

/-- The timespan clamp of `adjust_difficulty`:
`min(max(actual_timespan, target_timespan / 4), target_timespan * 4)`
with the adjustment ratio constant 4.  The `u64` product
`target_timespan * 4` overflows (panics) when it does not fit in 64 bits,
modelled as `none`. -/
def adjustedTimespan (actual_timespan target_timespan : Nat) : Option Nat :=
  if target_timespan * 4 < 2 ^ 64 then
    some (min (max actual_timespan (target_timespan / 4)) (target_timespan * 4))
  else none

/-- The new-target computation of `adjust_difficulty`:
`(current_target as u128 * adjusted_timespan as u128 / target_timespan as u128).min(u128::MAX)`.
The 128-bit multiplication overflows (panics) when the product does not
fit in 128 bits, and the division panics when `target_timespan = 0`;
both are modelled as `none`.  The trailing `.min(u128::MAX)` is kept as
in the source (it never changes an in-range value). -/
def newTargetRaw (current_target adjusted_timespan target_timespan : Nat) : Option Nat :=
  if current_target * adjusted_timespan < 2 ^ 128 then
    if target_timespan = 0 then none
    else some (min (current_target * adjusted_timespan / target_timespan) (2 ^ 128 - 1))
  else none

/-- `adjust_difficulty(current_difficulty, actual_timespan, target_timespan)`.
The `f64` `percent_change` component of the returned pair is floating
point and is not modelled; only the new `Difficulty` is. -/
def adjust_difficulty (current_difficulty : Difficulty)
    (actual_timespan target_timespan : Nat) : Option Difficulty :=
  match adjustedTimespan actual_timespan target_timespan with
  | none => none
  | some adj =>
    match current_difficulty.to_target with
    | none => none
    | some current_target =>
      match newTargetRaw current_target adj target_timespan with
      | none => none
      | some new_target => from_target_u128 new_target

/-! ## Mempool (src/mempool.rs) -/

/-- Modelled from the spec: `Transaction` lives in `crate::transaction`,
which is not under src/.  Per the spec it is an opaque payload with a
content hash and a creation timestamp.  `hash` models
`Transaction::hash()` (a 256-bit content hash, as a `Nat`), `size`
models `bincode::serialize(&tx).len()` (the external bincode crate's
serialization is deterministic, so the size is a function of the
transaction), and `timestamp` models `tx.timestamp()`, the recorded
creation instant on the monotonic clock, in seconds as a `Nat`. -/
structure Transaction where
  hash : Nat
  size : Nat
  timestamp : Nat
deriving DecidableEq, Repr

/-- Modelled from the spec: `SignedBlock` lives in `crate::blockchain`,
which is not under src/.  Only the fields the mempool reads are
modelled: `hash` models `fruit.block.hash()`, `size` models
`bincode::serialize(&fruit).len()`, `header_timestamp` models
`fruit.block.header.timestamp` (wall-clock epoch seconds, a u64), and
`is_fruit` models `fruit.block.block_type == BlockType::Fruit`. -/
structure SignedBlock where
  hash : Nat
  size : Nat
  header_timestamp : Nat
  is_fruit : Bool
deriving DecidableEq, Repr

/-- The `MempoolError` variants of src/mempool.rs (payload strings of the
`SerializationError` and `InvalidHash` variants are not modelled). -/
inductive MempoolError where
  | PoolFull
  | SerializationError
  | InvalidHash
  | TransactionNotFound
  | FruitNotFound
deriving DecidableEq, Repr

/-- Association-list lookup, modelling `HashMap::get`. -/
def lookupA {α : Type} (l : List (Nat × α)) (k : Nat) : Option α :=
  (l.find? (fun p => p.1 == k)).map (·.2)

/-- Association-list insert-or-replace, modelling `HashMap::insert`. -/
def upsert {α : Type} (l : List (Nat × α)) (k : Nat) (v : α) : List (Nat × α) :=
  if l.any (fun p => p.1 == k) then
    l.map (fun p => if p.1 == k then (k, v) else p)
  else l ++ [(k, v)]

/-- The `Mempool` state of src/mempool.rs.  The two `rs_merkle`
`MerkleTree` values (an external crate) are modelled by their committed
leaf lists: `insert` appends a leaf and the rebuild replaces the leaves
wholesale, exactly as the source drives the trees; root/proof
computation is not needed by the claims below.  `Duration` and `Instant`
values are in seconds as `Nat` (the source builds both timeouts with
`Duration::from_secs`). -/
structure Mempool where
  transaction_merkle_tree : List Nat
  fruit_merkle_tree : List Nat
  transactions : List (Nat × Transaction)
  fruits : List (Nat × SignedBlock)
  transaction_queue : List Nat
  fruit_queue : List Nat
  size_limit_bytes : Nat
  current_size_bytes : Nat
  transaction_timeout : Nat
  fruit_timeout : Nat
  last_cleanup : Nat
deriving DecidableEq, Repr

/-- `Mempool::new(size_limit_mb, transaction_timeout_secs, fruit_timeout_secs)`.
`now` models the `Instant::now()` stamped into `last_cleanup`. -/
def Mempool.new (size_limit_mb transaction_timeout_secs fruit_timeout_secs now : Nat) : Mempool :=
  { transaction_merkle_tree := []
    fruit_merkle_tree := []
    transactions := []
    fruits := []
    transaction_queue := []
    fruit_queue := []
    size_limit_bytes := size_limit_mb * 1024 * 1024
    current_size_bytes := 0
    transaction_timeout := transaction_timeout_secs
    fruit_timeout := fruit_timeout_secs
    last_cleanup := now }

/-- `Mempool::add_transaction`.  The Rust signature is
`(&mut self, Transaction) -> Result<(), MempoolError>`; it is modelled by
state passing, returning the updated pool and an optional error — on
error the source returns before any mutation, so the input pool is
returned unchanged. -/
def Mempool.add_transaction (m : Mempool) (transaction : Transaction) :
    Mempool × Option MempoolError :=
  let transaction_size := transaction.size
  if m.size_limit_bytes < m.current_size_bytes + transaction_size then
    (m, some .PoolFull)
  else
    let transaction_hash := transaction.hash
    ({ m with
        transaction_merkle_tree := m.transaction_merkle_tree ++ [transaction_hash]
        transactions := upsert m.transactions transaction_hash transaction
        transaction_queue := m.transaction_queue ++ [transaction_hash]
        current_size_bytes := m.current_size_bytes + transaction_size }, none)

/-- `Mempool::add_fruit`. -/
def Mempool.add_fruit (m : Mempool) (fruit : SignedBlock) :
    Mempool × Option MempoolError :=
  if fruit.is_fruit = false then (m, some .InvalidHash)
  else
    let fruit_size := fruit.size
    if m.size_limit_bytes < m.current_size_bytes + fruit_size then
      (m, some .PoolFull)
    else
      let fruit_hash := fruit.hash
      ({ m with
          fruit_merkle_tree := m.fruit_merkle_tree ++ [fruit_hash]
          fruits := upsert m.fruits fruit_hash fruit
          fruit_queue := m.fruit_queue ++ [fruit_hash]
          current_size_bytes := m.current_size_bytes + fruit_size }, none)

/-- `Mempool::get_transactions`: a cloned snapshot of the map's values. -/
def Mempool.get_transactions (m : Mempool) : List Transaction :=
  m.transactions.map (·.2)

/-- `Mempool::get_fruits`. -/
def Mempool.get_fruits (m : Mempool) : List SignedBlock :=
  m.fruits.map (·.2)

/-- `Mempool::cleanup_expired`, with `now` the `Instant::now()` taken at
entry.  `Instant::duration_since` saturates at zero, modelled by `Nat`
subtraction.  The fruit predicate models the source line
`now.duration_since(Instant::now() - Duration::from_secs(fruit.block.header.timestamp))`,
taking the inner `Instant::now()` equal to `now` and instant-minus-
duration as `Nat` subtraction (Rust would panic if the subtraction
underflowed the monotonic clock's epoch).  The `retain` calls touch only
the two queues; the `transactions` and `fruits` maps are not modified.
`rebuild_merkle_trees` re-inserts exactly the queues' hashes into fresh
trees, modelled by replacing the leaf lists with the queues. -/
def Mempool.cleanup_expired (m : Mempool) (now : Nat) : Mempool :=
  if now - m.last_cleanup < min m.transaction_timeout m.fruit_timeout then m
  else
    let tq := m.transaction_queue.filter (fun h =>
      match lookupA m.transactions h with
      | some tx => decide (now - tx.timestamp < m.transaction_timeout)
      | none => false)
    let fq := m.fruit_queue.filter (fun h =>
      match lookupA m.fruits h with
      | some fruit => decide (now - (now - fruit.header_timestamp) < m.fruit_timeout)
      | none => false)
    { m with
        transaction_queue := tq
        fruit_queue := fq
        transaction_merkle_tree := tq
        fruit_merkle_tree := fq
        last_cleanup := now }

/-- `Mempool::remove_transactions(&mut self, transactions: &[Transaction])`:
for each listed transaction, remove its hash from the map and the queue
and unconditionally subtract its serialized size from the aggregate
counter (`saturating_sub`, i.e. `Nat` subtraction); then rebuild both
Merkle trees from the queues. -/
def Mempool.remove_transactions (m : Mempool) (transactions : List Transaction) : Mempool :=
  let m' := transactions.foldl (fun m tx =>
    { m with
        transactions := m.transactions.filter (fun p => p.1 != tx.hash)
        transaction_queue := m.transaction_queue.filter (fun h => h != tx.hash)
        current_size_bytes := m.current_size_bytes - tx.size }) m
  { m' with
      transaction_merkle_tree := m'.transaction_queue
      fruit_merkle_tree := m'.fruit_queue }

/-! ## Block storage engine (src/main.rs and src/storage.rs) -/

/-- The local `Transaction { data: String }` struct of src/main.rs
(distinct from the mempool's `Transaction`; renamed `MainTransaction`
because Lean cannot hold two structures of the same name). -/
structure MainTransaction where
  data : String
deriving DecidableEq, Repr

/-- The `BlockHeader` struct of src/main.rs.  The `[u8; 32]` hash fields
are modelled as their 256-bit values (`Nat`). -/
structure BlockHeader where
  previous_hash : Nat
  merkle_root : Nat
  timestamp : Nat
  nonce : Nat
deriving DecidableEq, Repr

/-- The `Block` struct of src/main.rs. -/
structure Block where
  header : BlockHeader
  transactions : List MainTransaction
deriving DecidableEq, Repr

/-- The `BlockLocation` struct of src/main.rs / src/storage.rs. -/
structure BlockLocation where
  file_name : String
  byte_offset : Nat
deriving DecidableEq, Repr

/-- The `BlockchainConfig` struct of src/main.rs (`blocks_dir` as a plain
string path). -/
structure BlockchainConfig where
  db_path : String
  blocks_dir : String
  max_block_file_size : Nat
  compression_level : Nat
deriving DecidableEq, Repr

/-- Modelled from the spec: the external bincode crate's deterministic
binary encoding of a `MainTransaction` (a length-prefixed byte string). -/
def serTx (t : MainTransaction) : List Nat :=
  t.data.toList.length :: t.data.toList.map Char.toNat

/-- Byte encoding of a transaction list, one length-prefixed record per
transaction. -/
def serTxs : List MainTransaction → List Nat
  | [] => []
  | t :: ts => serTx t ++ serTxs ts

/-- Modelled from the spec: `bincode::serialize(&block)` — a
deterministic binary encoding of the header fields followed by the
length-prefixed transaction list.  The exact external bincode byte
layout is irrelevant to the claims; what matters is that the encoding is
deterministic and round-trips through `deserialize_block`. -/
def serialize_block (b : Block) : List Nat :=
  b.header.previous_hash :: b.header.merkle_root :: b.header.timestamp ::
    b.header.nonce :: b.transactions.length :: serTxs b.transactions

/-- Decode a byte list back into a string. -/
def bytesToString (l : List Nat) : String :=
  String.mk (l.map Char.ofNat)

/-- Parser for `serTxs`: reads `k` length-prefixed transaction records
and requires the input to be fully consumed. -/
def parseTxs : Nat → List Nat → Option (List MainTransaction)
  | 0, rest => if rest.isEmpty then some [] else none
  | _ + 1, [] => none
  | k + 1, len :: rest =>
    if len ≤ rest.length then
      (parseTxs k (rest.drop len)).map (fun ts => ⟨bytesToString (rest.take len)⟩ :: ts)
    else none

/-- Modelled from the spec: `bincode::deserialize::<Block>`, the inverse
of `serialize_block`; `none` models a deserialization error on
malformed input. -/
def deserialize_block : List Nat → Option Block
  | p :: r :: ts :: n :: k :: rest =>
    (parseTxs k rest).map (fun txs => ⟨⟨p, r, ts, n⟩, txs⟩)
  | _ => none

/-- Modelled from the spec: the external lz4 crate's framed streaming
compression (one self-delimiting frame per `Encoder::finish`), modelled
as a lossless length-prefixed frame.  The compression level only affects
the ratio, not the semantics, and is ignored. -/
def compress (level : Nat) (data : List Nat) : List Nat :=
  data.length :: data

/-- Modelled from the spec: the external blake3 crate's 256-bit
cryptographic hash, modelled as a deterministic function of the byte
sequence (collision resistance is not needed by the claims below). -/
def blake3_hash (data : List Nat) : Nat :=
  data.foldl (fun acc b => (acc * 257 + b + 1) % 2 ^ 256) 0

/-- The `BlockStorage` struct of src/main.rs.  The file system under
`blocks_dir` is modelled in the state as the total map `files` from file
name to current byte content (absent files are empty). -/
structure BlockStorage where
  config : BlockchainConfig
  current_file_index : Nat
  current_file_size : Nat
  files : String → List Nat

/-- `BlockStorage::new(config)`: `current_file_index: 1, current_file_size: 0`
(`create_dir_all` touches no block file; the modelled directory starts
empty). -/
def BlockStorage.new (config : BlockchainConfig) : BlockStorage :=
  { config := config, current_file_index := 1, current_file_size := 0,
    files := fun _ => [] }

/-- The file name built by `determine_target_file`:
`blocks_dir.join(format!("block_file_{}.dat.lz4", index))`. -/
def blockFileName (dir : String) (index : Nat) : String :=
  dir ++ "/block_file_" ++ toString index ++ ".dat.lz4"

/-- `BlockStorage::determine_target_file(&mut self)`: rotate to the next
file index (resetting the tracked size) when the tracked size of the
active file has reached the configured maximum, then return the active
file's name. -/
def BlockStorage.determine_target_file (bs : BlockStorage) : BlockStorage × String :=
  let bs' := if bs.config.max_block_file_size ≤ bs.current_file_size then
      { bs with current_file_index := bs.current_file_index + 1, current_file_size := 0 }
    else bs
  (bs', blockFileName bs'.config.blocks_dir bs'.current_file_index)

/-- `BlockStorage::append_block_to_file(&mut self, block_data)`: pick the
target file, record the end-of-file offset, stream the block through the
compressor appending one frame, and grow the tracked size by the number
of compressed bytes written.  Returns the updated storage and the
`(file_name, byte_offset)` pair. -/
def BlockStorage.append_block_to_file (bs : BlockStorage) (block_data : List Nat) :
    BlockStorage × String × Nat :=
  let r := bs.determine_target_file
  let bs₁ := r.1
  let file_name := r.2
  let content := bs₁.files file_name
  let byte_offset := content.length
  let frame := compress bs₁.config.compression_level block_data
  ({ bs₁ with
      files := fun n => if n = file_name then content ++ frame else bs₁.files n
      current_file_size := bs₁.current_file_size + frame.length },
   file_name, byte_offset)

/-- `BlockStorage::read_block_from_file(&self, location)`: open the named
file, seek to the recorded offset and decompress that block's frame.
`none` models the I/O or decoding error on a missing file, an offset
past the end, or a truncated frame. -/
def BlockStorage.read_block_from_file (bs : BlockStorage) (location : BlockLocation) :
    Option (List Nat) :=
  match (bs.files location.file_name).drop location.byte_offset with
  | [] => none
  | len :: rest => if len ≤ rest.length then some (rest.take len) else none

/-- The error taxonomy of the storage paths (the source uses
`Box<dyn Error>`; the spec's categories are encoding failure, I/O
failure and index-store failure). -/
inductive StorageError where
  | encodingFailure
  | ioFailure
  | indexFailure
deriving DecidableEq, Repr

/-- The `Blockchain` struct of src/main.rs.  `storage` models the
RocksDB-backed location index of src/storage.rs as the key→value map it
maintains (`store_block_location` = `db.put`, `retrieve_block_location`
= `db.get`); `chain_tip` is the hash behind the `RwLock`. -/
structure Blockchain where
  storage : Nat → Option BlockLocation
  block_storage : BlockStorage
  chain_tip : Nat

/-- `Blockchain::new`: empty index, fresh block storage, genesis tip
`[0; 32]`. -/
def Blockchain.new (config : BlockchainConfig) : Blockchain :=
  { storage := fun _ => none
    block_storage := BlockStorage.new config
    chain_tip := 0 }

/-- `Blockchain::add_block(&self, block)`: serialize, hash, append to the
flat-file store, write the location to the index, and only then
overwrite the chain tip.  The three fallible effects — serialization,
the flat-file append and the index put — are external; their success is
modelled by the three boolean flags (the in-memory model itself cannot
fail).  On failure the function returns the error with every step after
the failing one not applied; in particular the tip keeps its previous
value. -/
def Blockchain.add_block (bc : Blockchain) (block : Block)
    (ser_ok append_ok index_ok : Bool) : Blockchain × Option StorageError :=
  match ser_ok with
  | false => (bc, some .encodingFailure)
  | true =>
    let block_data := serialize_block block
    let block_hash := blake3_hash block_data
    match append_ok with
    | false => (bc, some .ioFailure)
    | true =>
      let r := bc.block_storage.append_block_to_file block_data
      let bs' := r.1
      let location : BlockLocation := { file_name := r.2.1, byte_offset := r.2.2 }
      match index_ok with
      | false => ({ bc with block_storage := bs' }, some .indexFailure)
      | true =>
        ({ storage := fun h => if h = block_hash then some location else bc.storage h
           block_storage := bs'
           chain_tip := block_hash }, none)

/-- `Blockchain::get_block(&self, block_hash)`: look the hash up in the
index; on a miss return `Ok(None)`; on a hit read and decompress the
frame (I/O failure propagates) and deserialize it (encoding failure
propagates). -/
def Blockchain.get_block (bc : Blockchain) (block_hash : Nat) :
    Except StorageError (Option Block) :=
  match bc.storage block_hash with
  | none => .ok none
  | some location =>
    match bc.block_storage.read_block_from_file location with
    | none => .error .ioFailure
    | some block_data =>
      match deserialize_block block_data with
      | none => .error .encodingFailure
      | some block => .ok (some block)

/-! ## Concrete states used by witnesses and counterexamples -/

/-- A pooled transaction inserted at instant 0. -/
def tx0 : Transaction := { hash := 1, size := 3, timestamp := 0 }

/-- A mempool holding `tx0`, with 10-second timeouts and a last cleanup
at instant 0. -/
def mempool0 : Mempool :=
  { transaction_merkle_tree := [1]
    fruit_merkle_tree := []
    transactions := [(1, tx0)]
    fruits := []
    transaction_queue := [1]
    fruit_queue := []
    size_limit_bytes := 100
    current_size_bytes := 3
    transaction_timeout := 10
    fruit_timeout := 10
    last_cleanup := 0 }

/-- A transaction that does not fit into `mempool0`. -/
def txBig : Transaction := { hash := 2, size := 98, timestamp := 5 }

/-- A transaction absent from `mempool0`. -/
def txAbsent : Transaction := { hash := 9, size := 2, timestamp := 4 }

/-- A sample configuration for the storage engine. -/
def config0 : BlockchainConfig :=
  { db_path := "db", blocks_dir := "blocks", max_block_file_size := 100,
    compression_level := 4 }

/-- A block storage whose first file already holds one 3-byte frame. -/
def storage0 : BlockStorage :=
  { config := config0
    current_file_index := 1
    current_file_size := 4
    files := fun n => if n = "blocks/block_file_1.dat.lz4" then [3, 7, 8, 9] else [] }

/-- A fresh blockchain over `config0`. -/
def chain0 : Blockchain := Blockchain.new config0

/-- A sample block. -/
def block0 : Block :=
  { header := { previous_hash := 0, merkle_root := 11, timestamp := 1700000000, nonce := 5 }
    transactions := [⟨"pay"⟩, ⟨"ping"⟩] }

/-! ## Helper lemmas for the difficulty codec -/

theorem Difficulty.new_bits_eq (b : Nat) : Difficulty.new b = ⟨MIN_DIFFICULTY_BITS⟩ := by
  simp only [Difficulty.new, MAX_DIFFICULTY_BITS, MIN_DIFFICULTY_BITS, Difficulty.mk.injEq]
  omega

theorem from_target_u128_bits (t : Nat) (d : Difficulty)
    (h : from_target_u128 t = some d) : d.bits = MIN_DIFFICULTY_BITS := by
  simp only [from_target_u128] at h
  split at h
  · exact absurd h (by simp)
  · rw [Difficulty.new_bits_eq] at h
    cases h
    rfl

/-! ## Helper lemmas for the storage engine -/

theorem bytesToString_map (s : String) : bytesToString (s.toList.map Char.toNat) = s := by
  cases s with
  | mk data =>
    simp [bytesToString, String.toList, List.map_map, Function.comp_def, Char.ofNat_toNat]

theorem parseTxs_serTxs (ts : List MainTransaction) :
    parseTxs ts.length (serTxs ts) = some ts := by
  induction ts with
  | nil => rfl
  | cons t ts ih =>
    show parseTxs (ts.length + 1) (serTx t ++ serTxs ts) = some (t :: ts)
    simp only [serTx, List.cons_append, parseTxs]
    rw [show t.data.toList.length = (t.data.toList.map Char.toNat).length from
      (List.length_map _ _).symm]
    rw [if_pos (by simp [List.length_append])]
    simp only [List.append_eq]
    rw [List.take_left, List.drop_left, ih]
    have hb := bytesToString_map t.data
    simp only [String.toList] at hb
    simp [hb]

theorem deserialize_serialize (b : Block) :
    deserialize_block (serialize_block b) = some b := by
  cases b with
  | mk header txs =>
    cases header with
    | mk p r ts n =>
      simp [serialize_block, deserialize_block, parseTxs_serTxs]

theorem determine_preserves_files (bs : BlockStorage) :
    bs.determine_target_file.1.files = bs.files := by
  unfold BlockStorage.determine_target_file
  dsimp only
  split <;> rfl

theorem determine_preserves_config (bs : BlockStorage) :
    bs.determine_target_file.1.config = bs.config := by
  unfold BlockStorage.determine_target_file
  dsimp only
  split <;> rfl

theorem read_append_fresh (bs : BlockStorage) (data : List Nat) :
    (bs.append_block_to_file data).1.read_block_from_file
      ⟨(bs.append_block_to_file data).2.1, (bs.append_block_to_file data).2.2⟩
      = some data := by
  unfold BlockStorage.append_block_to_file BlockStorage.read_block_from_file compress
  simp [List.drop_left, List.take_length]

theorem read_append_stable (bs : BlockStorage) (data : List Nat) (loc : BlockLocation)
    (d : List Nat) (h : bs.read_block_from_file loc = some d) :
    (bs.append_block_to_file data).1.read_block_from_file loc = some d := by
  unfold BlockStorage.read_block_from_file at h ⊢
  unfold BlockStorage.append_block_to_file
  dsimp only
  simp only [determine_preserves_files, determine_preserves_config]
  by_cases he : loc.file_name = bs.determine_target_file.2
  · rw [if_pos he, ← he]
    cases hdrop : (bs.files loc.file_name).drop loc.byte_offset with
    | nil => rw [hdrop] at h; exact absurd h (by simp)
    | cons len rest =>
      rw [hdrop] at h
      dsimp only at h
      split_ifs at h with hle
      · have hoff : loc.byte_offset ≤ (bs.files loc.file_name).length := by
          by_contra hc
          exact absurd hdrop (by rw [List.drop_eq_nil_of_le (Nat.le_of_not_le hc)]; simp)
        rw [List.drop_append_of_le_length hoff, hdrop, List.cons_append]
        dsimp only
        have hle' : len ≤ (rest ++ compress bs.config.compression_level data).length := by
          rw [List.length_append]; omega
        rw [if_pos hle', List.take_append_of_le_length hle]
        exact h
  · rw [if_neg he]
    exact h

/-! ## Claims -/

/-- C1 (amended): `Difficulty::new(bits)` never fails, but because
`MAX_DIFFICULTY_BITS` is numerically smaller than `MIN_DIFFICULTY_BITS`
the clamp `max(min(bits, MAX), MIN)` collapses: the resulting bits value
always equals `MIN_DIFFICULTY_BITS`, and hence lies in the numerically
ordered interval `[MAX_DIFFICULTY_BITS, MIN_DIFFICULTY_BITS]` rather
than in the claimed (empty) interval
`[MIN_DIFFICULTY_BITS, MAX_DIFFICULTY_BITS]`. -/
theorem C1_new_clamp_collapses (bits : Nat) :
    (Difficulty.new bits).bits = MIN_DIFFICULTY_BITS ∧
    MAX_DIFFICULTY_BITS ≤ (Difficulty.new bits).bits ∧
    (Difficulty.new bits).bits ≤ MIN_DIFFICULTY_BITS := by
  rw [Difficulty.new_bits_eq]
  exact ⟨rfl, by decide, le_refl _⟩

/-- C1 counterexample: at input `bits = 0` the result does not satisfy
`MIN_DIFFICULTY_BITS <= new(0).bits <= MAX_DIFFICULTY_BITS`, because the
second inequality fails (`0x207fffff > 0x1f000001`). -/
theorem C1_counterexample :
    ¬ (MIN_DIFFICULTY_BITS ≤ (Difficulty.new 0).bits ∧
       (Difficulty.new 0).bits ≤ MAX_DIFFICULTY_BITS) := by decide

/-- C2 (amended): for `target_timespan > 0` (and `target_timespan * 4`
in `u64` range), the clamped timespan lies in
`[target_timespan/4, target_timespan*4]` and the intermediate 128-bit
new target is at most `4 *` the current target; but the returned
difficulty is always the constant `MIN_DIFFICULTY_BITS` (the clamp in
`Difficulty::new` collapses), so no bound relating the returned
difficulty's integer target to the current target holds — that target
computation fails outright. -/
theorem C2_retarget_partial_bound (c : Difficulty) (a t : Nat)
    (ht : 0 < t) (hof : t * 4 < 2 ^ 64) :
    adjustedTimespan a t = some (min (max a (t / 4)) (t * 4)) ∧
    t / 4 ≤ min (max a (t / 4)) (t * 4) ∧
    min (max a (t / 4)) (t * 4) ≤ t * 4 ∧
    (∀ tc nt, c.to_target = some tc →
      newTargetRaw tc (min (max a (t / 4)) (t * 4)) t = some nt → nt ≤ 4 * tc) ∧
    (∀ d, adjust_difficulty c a t = some d → d.bits = MIN_DIFFICULTY_BITS) := by
  refine ⟨?_, ?_, ?_, ?_, ?_⟩
  · unfold adjustedTimespan
    rw [if_pos hof]
  · omega
  · omega
  · intro tc nt htc hnt
    unfold newTargetRaw at hnt
    split_ifs at hnt with h1 h2
    have hnt' : nt = min (tc * (min (max a (t / 4)) (t * 4)) / t) (2 ^ 128 - 1) :=
      (Option.some.inj hnt).symm
    have hadj : min (max a (t / 4)) (t * 4) ≤ t * 4 := min_le_right _ _
    calc nt ≤ tc * (min (max a (t / 4)) (t * 4)) / t := by rw [hnt']; exact min_le_left _ _
      _ ≤ tc * (t * 4) / t := Nat.div_le_div_right (Nat.mul_le_mul_left _ hadj)
      _ = 4 * tc := by rw [show tc * (t * 4) = 4 * tc * t by ring, Nat.mul_div_cancel _ ht]
  · intro d hd
    unfold adjust_difficulty at hd
    split at hd
    · exact absurd hd (by simp)
    · split at hd
      · exact absurd hd (by simp)
      · split at hd
        · exact absurd hd (by simp)
        · exact from_target_u128_bits _ _ hd

/-- C2 witness: the amended theorem applied at
`current = Difficulty { bits: 0x11000001 }`, `actual_timespan = 1`,
`target_timespan = 1`. -/
theorem C2_witness :
    (0 : Nat) < 1 ∧ 1 * 4 < 2 ^ 64 ∧
    adjustedTimespan 1 1 = some (min (max 1 (1 / 4)) (1 * 4)) :=
  ⟨by decide, by decide,
    (C2_retarget_partial_bound ⟨0x11000001⟩ 1 1 (by decide) (by decide)).1⟩

/-- C2 counterexample: at `current = Difficulty { bits: 0x11000001 }`
(whose integer target is `2^112`), `actual_timespan = 1`,
`target_timespan = 1`, the adjusted difficulty is the collapsed constant
`0x207fffff` and its `to_target()` fails (232-bit shift), so the
returned difficulty's target is not within a factor 4 of the input
target — it does not exist at all. -/
theorem C2_counterexample :
    (Difficulty.mk 0x11000001).to_target = some (2 ^ 112) ∧
    adjust_difficulty ⟨0x11000001⟩ 1 1 = some ⟨MIN_DIFFICULTY_BITS⟩ ∧
    Option.bind (adjust_difficulty ⟨0x11000001⟩ 1 1) Difficulty.to_target = none := by
  refine ⟨by decide, by decide, by decide⟩

/-- C3 (amended): when `cleanup_expired` runs (at least the smaller of
the two timeouts has elapsed since `last_cleanup`), it removes expired
hashes from the two queues only and rebuilds both Merkle trees from the
queues: the `transactions` and `fruits` maps and the aggregate size
counter are left untouched, so an expired item still appears in the
`get_transactions()` / `get_fruits()` snapshots.  A transaction is
retained in the queue iff its recorded age is below
`transaction_timeout`; a fruit is retained iff its wall-clock header
timestamp (not its insertion age) is below `fruit_timeout`. -/
theorem C3_cleanup_touches_queues_only (m : Mempool) (now : Nat)
    (h : min m.transaction_timeout m.fruit_timeout ≤ now - m.last_cleanup) :
    (m.cleanup_expired now).transactions = m.transactions ∧
    (m.cleanup_expired now).fruits = m.fruits ∧
    (m.cleanup_expired now).current_size_bytes = m.current_size_bytes ∧
    (m.cleanup_expired now).transaction_queue = m.transaction_queue.filter (fun hs =>
      match lookupA m.transactions hs with
      | some tx => decide (now - tx.timestamp < m.transaction_timeout)
      | none => false) ∧
    (m.cleanup_expired now).fruit_queue = m.fruit_queue.filter (fun hs =>
      match lookupA m.fruits hs with
      | some fruit => decide (now - (now - fruit.header_timestamp) < m.fruit_timeout)
      | none => false) ∧
    (m.cleanup_expired now).transaction_merkle_tree = (m.cleanup_expired now).transaction_queue ∧
    (m.cleanup_expired now).fruit_merkle_tree = (m.cleanup_expired now).fruit_queue ∧
    (m.cleanup_expired now).last_cleanup = now := by
  unfold Mempool.cleanup_expired
  rw [if_neg (not_lt.mpr h)]
  exact ⟨rfl, rfl, rfl, rfl, rfl, rfl, rfl, rfl⟩

/-- C3 witness: the amended theorem applied to `mempool0` at instant
100. -/
theorem C3_witness :
    min mempool0.transaction_timeout mempool0.fruit_timeout ≤ 100 - mempool0.last_cleanup ∧
    (mempool0.cleanup_expired 100).transactions = mempool0.transactions :=
  ⟨by decide, (C3_cleanup_touches_queues_only mempool0 100 (by decide)).1⟩

/-- C3 counterexample: in `mempool0` at instant 100 the pooled
transaction `tx0` is 100 seconds old against a 10-second timeout;
`cleanup_expired` runs (it stamps `last_cleanup` and drops the hash from
the queue) yet `tx0` still appears in the `get_transactions()` snapshot
— it is not fully removed from the pool, contradicting the claim. -/
theorem C3_counterexample :
    mempool0.transaction_timeout < 100 - tx0.timestamp ∧
    (mempool0.cleanup_expired 100).last_cleanup = 100 ∧
    (mempool0.cleanup_expired 100).transaction_queue = [] ∧
    tx0 ∈ (mempool0.cleanup_expired 100).get_transactions := by decide

/-- C4 (confirmed): whenever the serialized size of a transaction added
to the current aggregate size would exceed the byte budget,
`add_transaction` returns the `PoolFull` error and the pool state is
returned unchanged — no map, queue, Merkle-tree or size-counter
mutation happens. -/
theorem C4_pool_full_leaves_state_unchanged (m : Mempool) (tx : Transaction)
    (h : m.size_limit_bytes < m.current_size_bytes + tx.size) :
    m.add_transaction tx = (m, some .PoolFull) := by
  unfold Mempool.add_transaction
  rw [if_pos h]

/-- C4 witness: `mempool0` (budget 100, current size 3) rejects the
98-byte transaction `txBig` with `PoolFull` and is left unchanged. -/
theorem C4_witness :
    mempool0.add_transaction txBig = (mempool0, some .PoolFull) :=
  C4_pool_full_leaves_state_unchanged mempool0 txBig (by decide)

/-- C5 (code bug): every difficulty `Difficulty::new` can produce has
exponent byte 32 (the collapsed clamp), for which `to_target`'s shift
amount is `8 * (32 - 3) = 232 >= 128` — an overflowing `u128` left
shift, so `to_target` fails (panics under checked arithmetic) for every
value `new` produces, contradicting the claimed totality. -/
theorem C5_to_target_fails_on_new (bits : Nat) :
    (Difficulty.new bits).bits >>> 24 = 32 ∧
    128 ≤ 8 * ((Difficulty.new bits).bits >>> 24 - 3) ∧
    (Difficulty.new bits).to_target = none := by
  rw [Difficulty.new_bits_eq]
  exact ⟨by decide, by decide, by decide⟩

/-- C6 (confirmed): adding a block with all three external effects
succeeding makes `get_block` at the block's hash return exactly that
block (the stored frame decompresses and deserializes back to it), and
`get_block` on a hash absent from the index returns `Ok(None)`, not an
error. -/
theorem C6_storage_roundtrip :
    (∀ (bc : Blockchain) (block : Block),
      (bc.add_block block true true true).1.get_block
        (blake3_hash (serialize_block block)) = .ok (some block)) ∧
    (∀ (bc : Blockchain) (hsh : Nat), bc.storage hsh = none →
      bc.get_block hsh = .ok none) := by
  constructor
  · intro bc block
    unfold Blockchain.add_block Blockchain.get_block
    dsimp only
    rw [if_pos rfl]
    dsimp only
    rw [read_append_fresh bc.block_storage (serialize_block block)]
    dsimp only
    rw [deserialize_serialize]
  · intro bc hsh hnone
    unfold Blockchain.get_block
    rw [hnone]

/-- C6 witness: the round-trip theorem applied to `chain0` and `block0`,
and the absent-hash part applied at hash 5 (not stored in `chain0`). -/
theorem C6_witness :
    (chain0.add_block block0 true true true).1.get_block
      (blake3_hash (serialize_block block0)) = .ok (some block0) ∧
    chain0.get_block 5 = .ok none :=
  ⟨C6_storage_roundtrip.1 chain0 block0, C6_storage_roundtrip.2 chain0 5 rfl⟩

/-- C7 (confirmed): if any of the three fallible steps of `add_block`
(serialization, flat-file append, location-index write) fails, the call
returns an error and the chain tip keeps its previous value — the tip
is overwritten only after all prior steps succeeded. -/
theorem C7_tip_update_gated (bc : Blockchain) (block : Block) (s a i : Bool)
    (h : s = false ∨ a = false ∨ i = false) :
    (bc.add_block block s a i).1.chain_tip = bc.chain_tip ∧
    (bc.add_block block s a i).2.isSome = true := by
  cases s <;> cases a <;> cases i <;> simp_all [Blockchain.add_block]

/-- C7 witness: the theorem applied with a failing index write. -/
theorem C7_witness :
    (chain0.add_block block0 true true false).1.chain_tip = chain0.chain_tip ∧
    (chain0.add_block block0 true true false).2.isSome = true :=
  C7_tip_update_gated chain0 block0 true true false (Or.inr (Or.inr rfl))

/-- C8 (amended): the round-trip
`from_target(&new(bits).target()).bits` does not recover `bits`: since
`new` collapses every input to `MIN_DIFFICULTY_BITS`, the round-trip is
the constant `MIN_DIFFICULTY_BITS` for every input, so the claimed
identity holds only at `bits = MIN_DIFFICULTY_BITS` itself. -/
theorem C8_roundtrip_collapses (bits : Nat) :
    ((Difficulty.new bits).target).map (fun a => (Difficulty.from_target a).bits)
      = some MIN_DIFFICULTY_BITS := by
  rw [Difficulty.new_bits_eq]
  decide

/-- C8 counterexample: `bits = 0x1f000001` lies between the two bounds
(in the numerical order that makes the range non-empty), yet the
round-trip returns `0x207fffff`, not `bits` — far beyond any 3-byte
mantissa precision loss. -/
theorem C8_counterexample :
    (MAX_DIFFICULTY_BITS ≤ 0x1f000001 ∧ (0x1f000001 : Nat) ≤ MIN_DIFFICULTY_BITS) ∧
    ((Difficulty.new 0x1f000001).target).map (fun a => (Difficulty.from_target a).bits)
      ≠ some 0x1f000001 := by
  refine ⟨by decide, by decide⟩

/-- C9 (confirmed): the flat-file index starts at 1; an append bumps it
by exactly one precisely when the tracked post-compression size of the
active file has reached the configured maximum (and never decreases);
the appended block lands in the file named after the current index; and
every block previously readable at its recorded location is still
readable there after the append. -/
theorem C9_file_rotation :
    (∀ config : BlockchainConfig, (BlockStorage.new config).current_file_index = 1) ∧
    (∀ (bs : BlockStorage) (data : List Nat),
      (bs.append_block_to_file data).1.current_file_index =
        (if bs.config.max_block_file_size ≤ bs.current_file_size then
          bs.current_file_index + 1 else bs.current_file_index) ∧
      bs.current_file_index ≤ (bs.append_block_to_file data).1.current_file_index ∧
      (bs.append_block_to_file data).2.1 =
        blockFileName bs.config.blocks_dir
          (bs.append_block_to_file data).1.current_file_index ∧
      (∀ (loc : BlockLocation) (d : List Nat),
        bs.read_block_from_file loc = some d →
        (bs.append_block_to_file data).1.read_block_from_file loc = some d)) := by
  refine ⟨fun _ => rfl, fun bs data => ⟨?_, ?_, ?_, fun loc d h => read_append_stable bs data loc d h⟩⟩
  · unfold BlockStorage.append_block_to_file BlockStorage.determine_target_file
    dsimp only
    split <;> rfl
  · unfold BlockStorage.append_block_to_file BlockStorage.determine_target_file
    dsimp only
    split <;> simp
  · unfold BlockStorage.append_block_to_file BlockStorage.determine_target_file
    dsimp only
    split <;> rfl

/-- C9 witness: the rotation theorem applied to `config0` and to
`storage0` (whose first file holds a 3-byte frame at offset 0): after
appending another block the old frame is still readable at its recorded
location. -/
theorem C9_witness :
    (BlockStorage.new config0).current_file_index = 1 ∧
    (storage0.append_block_to_file [1, 2]).1.read_block_from_file
      ⟨"blocks/block_file_1.dat.lz4", 0⟩ = some [7, 8, 9] :=
  ⟨C9_file_rotation.1 config0,
    (C9_file_rotation.2 storage0 [1, 2]).2.2.2 ⟨"blocks/block_file_1.dat.lz4", 0⟩
      [7, 8, 9] (by decide)⟩

/-- C10 (confirmed): `remove_transactions` called with a transaction not
currently pooled leaves the transactions map and the insertion queue
unchanged, yet still decreases the aggregate byte-size counter by that
transaction's serialized size (saturating at zero) — the decrement is
not conditioned on the item having been present. -/
theorem C10_remove_absent_decrements_size (m : Mempool) (tx : Transaction)
    (h1 : ∀ p ∈ m.transactions, p.1 ≠ tx.hash)
    (h2 : tx.hash ∉ m.transaction_queue) :
    (m.remove_transactions [tx]).transactions = m.transactions ∧
    (m.remove_transactions [tx]).transaction_queue = m.transaction_queue ∧
    (m.remove_transactions [tx]).current_size_bytes = m.current_size_bytes - tx.size := by
  unfold Mempool.remove_transactions
  dsimp only [List.foldl]
  have ht : m.transactions.filter (fun p => p.1 != tx.hash) = m.transactions :=
    List.filter_eq_self.mpr (fun p hp => by simpa using h1 p hp)
  have hq : m.transaction_queue.filter (fun hs => hs != tx.hash) = m.transaction_queue :=
    List.filter_eq_self.mpr (fun x hx => by
      simp only [bne_iff_ne, ne_eq, decide_eq_true_eq]
      exact fun he => h2 (he ▸ hx))
  exact ⟨ht, hq, rfl⟩

/-- C10 witness: removing the never-pooled `txAbsent` from `mempool0`
leaves map and queue unchanged but still subtracts its 2 bytes from the
size counter. -/
theorem C10_witness :
    (mempool0.remove_transactions [txAbsent]).transactions = mempool0.transactions ∧
    (mempool0.remove_transactions [txAbsent]).transaction_queue = mempool0.transaction_queue ∧
    (mempool0.remove_transactions [txAbsent]).current_size_bytes
      = mempool0.current_size_bytes - txAbsent.size :=
  C10_remove_absent_decrements_size mempool0 txAbsent (by decide) (by decide)
